import Mathlib

/-!
Verification of the mini-chatbot-ui repository's two core routines:

* `formatText` (markdown-flavoured text to HTML), embedded from
  `src/src/App.jsx` lines 191-214; the `src/unnamed/part_000` variant, which
  differs only in its replacement templates and in mapping a single `#`
  (rather than `##`) to the level-2 heading, is embedded as `formatTextV0`.
* `validateFile` / `validate` (upload-candidate validation), embedded from
  `src/unnamed/part_001` lines 56-90.

The JavaScript regex replacements are modelled character-by-character:
`String.prototype.replace` with a global pattern scans left to right,
substitutes each match and resumes scanning right after it; on a failed
match attempt it advances one character.  The patterns in the source are
simple enough that each is realised by an explicit matching function below.
-/

/-! ## Generic replacement engines -/

/-- One left-to-right sweep of a global regex replacement: at every position
try the matching function `M`; on `some (out, rest)` emit `out` and resume at
`rest` (just after the match), otherwise copy one character and advance.
`fuel` bounds recursion; every caller passes the input length, which
suffices because a successful match always consumes at least one
character. -/
def replAux (M : List Char → Option (List Char × List Char)) :
    Nat → List Char → List Char
  | 0, s => s
  | _ + 1, [] => []
  | n + 1, c :: cs =>
    match M (c :: cs) with
    | some (out, rest) => out ++ replAux M n rest
    | none => c :: replAux M n cs

/-- Run a whole-text replacement pass (used for the bold and italic
patterns, which are not line-anchored). -/
def runRepl (M : List Char → Option (List Char × List Char))
    (s : List Char) : List Char :=
  replAux M s.length s

/-- Like `replAux` but for patterns anchored with `^` under the `m` flag: a
match is attempted only at position 0 and right after a newline.  The
`atStart` flag tracks whether the current position is a line start. -/
def lineReplAux (M : List Char → Option (List Char × List Char)) :
    Nat → Bool → List Char → List Char
  | 0, _, s => s
  | _ + 1, _, [] => []
  | n + 1, atStart, c :: cs =>
    match (if atStart then M (c :: cs) else none) with
    | some (out, rest) => out ++ lineReplAux M n false rest
    | none => c :: lineReplAux M n (c == '\n') cs

/-- Run a line-anchored replacement pass over the whole text. -/
def runLineRepl (M : List Char → Option (List Char × List Char))
    (s : List Char) : List Char :=
  lineReplAux M s.length true s

/-! ## The individual pattern matchers -/

/-- The characters matched by the regex class `\s` (the ASCII portion; the
rarer Unicode space code points JavaScript also accepts never arise in the
texts considered here). -/
def isJsSpace (c : Char) : Bool :=
  c == ' ' || c == '\t' || c == '\n' || c == '\r' ||
  c == '\x0b' || c == '\x0c'

/-- Locate the earliest closing `**` for the bold pattern
`\*\*(.*?)\*\*`: returns the (newline-free, minimal) captured content and
the text after the closing delimiter. -/
def findClose2 : List Char → Option (List Char × List Char)
  | c1 :: c2 :: cs =>
    if c1 == '*' && c2 == '*' then some ([], cs)
    else if c1 == '\n' then none
    else (findClose2 (c2 :: cs)).map (fun p => (c1 :: p.1, p.2))
  | _ => none

/-- Locate the earliest closing `*` for the italic pattern `\*(.*?)\*`. -/
def findClose1 : List Char → Option (List Char × List Char)
  | [] => none
  | c :: cs =>
    if c == '*' then some ([], cs)
    else if c == '\n' then none
    else (findClose1 cs).map (fun p => (c :: p.1, p.2))

/-- Match `\*\*(.*?)\*\*` at the current position, producing the
replacement text for `<strong>$1</strong>`. -/
def boldM : List Char → Option (List Char × List Char)
  | c1 :: c2 :: cs =>
    if c1 == '*' && c2 == '*' then
      (findClose2 cs).map
        (fun p => ("<strong>".data ++ p.1 ++ "</strong>".data, p.2))
    else none
  | _ => none

/-- Match `\*(.*?)\*` at the current position, producing the replacement
text for `<em>$1</em>`. -/
def italM : List Char → Option (List Char × List Char)
  | [] => none
  | c :: cs =>
    if c == '*' then
      (findClose1 cs).map
        (fun p => ("<em>".data ++ p.1 ++ "</em>".data, p.2))
    else none

/-- After a fixed token, match `\s+(.*$)`: at least one whitespace
character, greedily extended, then the remainder of the current line.
Returns the whitespace run, the captured line body, and the rest of the
text (which is empty or begins with a newline). -/
def wsBody : List Char → Option (List Char × List Char × List Char)
  | [] => none
  | c :: cs =>
    if isJsSpace c then
      let u := cs.dropWhile isJsSpace
      some (c :: cs.takeWhile isJsSpace,
            u.takeWhile (fun d => d != '\n'),
            u.dropWhile (fun d => d != '\n'))
    else none

/-- Strip an expected literal token from the front of the text. -/
def stripLead : List Char → List Char → Option (List Char)
  | [], s => some s
  | _ :: _, [] => none
  | p :: ps, c :: cs => if p == c then stripLead ps cs else none

/-- Match a line-anchored pattern `^TOK\s+(.*$)` built from a literal token
`tok`, wrapping the captured body with `pre`/`post` (the `$1` replacement
templates for the heading passes). -/
def lineTokM (tok pre post : List Char)
    (s : List Char) : Option (List Char × List Char) :=
  match stripLead tok s with
  | none => none
  | some t =>
    match wsBody t with
    | none => none
    | some (_, body, rest) => some (pre ++ body ++ post, rest)

/-- Match the bullet pattern `^[\*\-]\s+(.*$)`, wrapping the captured body
with `pre`/`post`. -/
def bulletM (pre post : List Char)
    (s : List Char) : Option (List Char × List Char) :=
  match s with
  | [] => none
  | c :: cs =>
    if c == '*' || c == '-' then
      match wsBody cs with
      | none => none
      | some (_, body, rest) => some (pre ++ body ++ post, rest)
    else none

/-- Match the ordered-list pattern `^(\d+\.\s+)(.*$)`: capture `$1` is the
digits, the dot and the whitespace run; capture `$2` is the line body.  The
replacement is `pre ++ $1 ++ mid ++ $2 ++ post`. -/
def numM (pre mid post : List Char)
    (s : List Char) : Option (List Char × List Char) :=
  let ds := s.takeWhile Char.isDigit
  if ds.isEmpty then none
  else
    match s.drop ds.length with
    | '.' :: t =>
      match wsBody t with
      | none => none
      | some (w, body, rest) =>
        some (pre ++ ds ++ '.' :: w ++ mid ++ body ++ post, rest)
    | _ => none

/-- The final pass `text.replace(/\n/g, '<br>')`. -/
def brPass : List Char → List Char
  | [] => []
  | c :: cs => if c == '\n' then "<br>".data ++ brPass cs else c :: brPass cs

/-! ## The two `formatText` variants -/

/-- `formatText` from `src/src/App.jsx` (the variant with inline-style
replacement templates; `##` and `###` are the recognised heading tokens),
on character lists.  The passes run in source order, each scanning the
result of the previous one. -/
def fmtApp (s : List Char) : List Char :=
  if s.isEmpty then s else
  let t1 := runRepl boldM s
  let t2 := runRepl italM t1
  let t3 := runLineRepl (numM
    "<div style=\"margin: 8px 0; padding-left: 12px;\"><span style=\"font-weight: 600; color: #007bff; margin-right: 8px;\">".data
    "</span>".data "</div>".data) t2
  let t4 := runLineRepl (bulletM
    "<div style=\"margin: 6px 0; padding-left: 12px;\">• ".data
    "</div>".data) t3
  let t5 := runLineRepl (lineTokM "###".data
    "<h3 style=\"font-size: 18px; font-weight: 600; color: #34495e; margin: 12px 0 6px 0; line-height: 1.3;\">".data
    "</h3>".data) t4
  let t6 := runLineRepl (lineTokM "##".data
    "<h2 style=\"font-size: 20px; font-weight: 600; color: #2c3e50; margin: 16px 0 8px 0; line-height: 1.3;\">".data
    "</h2>".data) t5
  brPass t6

/-- `formatText` of `src/src/App.jsx` on strings.  The JavaScript guard
`if (!text) return text` returns falsy inputs unchanged; for strings the
only falsy value is the empty string. -/
def formatText (s : String) : String :=
  ⟨fmtApp s.data⟩

/-- `formatText` from `src/unnamed/part_000` (class-based replacement
templates; the heading passes recognise `###` and then a single `#`), on
character lists. -/
def fmtV0 (s : List Char) : List Char :=
  if s.isEmpty then s else
  let t1 := runRepl boldM s
  let t2 := runRepl italM t1
  let t3 := runLineRepl (numM
    "<div class=\"list-item\"><span class=\"list-number\">".data
    "</span>".data "</div>".data) t2
  let t4 := runLineRepl (bulletM
    "<div class=\"bullet-item\">• ".data "</div>".data) t3
  let t5 := runLineRepl (lineTokM "###".data
    "<h3 class=\"chat-h3\">".data "</h3>".data) t4
  let t6 := runLineRepl (lineTokM "#".data
    "<h2 class=\"chat-h2\">".data "</h2>".data) t5
  brPass t6

/-- `formatText` of `src/unnamed/part_000` on strings. -/
def formatTextV0 (s : String) : String :=
  ⟨fmtV0 s.data⟩

/-! ## Substring testing (used to state "contains"/"does not contain") -/

/-- Does the first list start with the second? -/
def leadsWith : List Char → List Char → Bool
  | _, [] => true
  | [], _ :: _ => false
  | c :: cs, p :: ps => c == p && leadsWith cs ps

/-- Does `s` contain `pat` as a contiguous substring? -/
def hasSub : List Char → List Char → Bool
  | [], pat => pat.isEmpty
  | c :: cs, pat => leadsWith (c :: cs) pat || hasSub cs pat

/-- String version of `hasSub`. -/
def hasSubStr (s pat : String) : Bool :=
  hasSub s.data pat.data

/-! ## The file validator (`src/unnamed/part_001`) -/

/-- Maximum file size: 10MB in bytes (`MAX_FILE_SIZE`). -/
def MAX_FILE_SIZE : Nat := 10 * 1024 * 1024

/-- `ALLOWED_EXTENSIONS`. -/
def ALLOWED_EXTENSIONS : List String := [".pdf", ".doc", ".docx"]

/-- `ALLOWED_MIME_TYPES`. -/
def ALLOWED_MIME_TYPES : List String :=
  ["application/pdf", "application/msword",
   "application/vnd.openxmlformats-officedocument.wordprocessingml.document"]

/-- The metadata of a selected file: `file.name`, `file.type` (the declared
MIME type, possibly empty) and `file.size` in bytes. -/
structure UploadCandidate where
  name : String
  type : String
  size : Nat
deriving DecidableEq

/-- `String.prototype.toLowerCase` as used on file names (basic-latin
letters; no file name considered here contains other cased letters). -/
def toLowerStr (s : String) : String :=
  ⟨s.data.map Char.toLower⟩

/-- `String.prototype.endsWith`. -/
def endsWithStr (s suff : String) : Bool :=
  suff.data.length ≤ s.data.length &&
    s.data.drop (s.data.length - suff.data.length) == suff.data

/-- Round a nonnegative rational `a / b` to the nearest integer, halves up
(the rounding `Number.prototype.toFixed` performs on the exactly
representable values that arise here). -/
def jsRound (a b : Nat) : Nat :=
  (2 * a + b) / (2 * b)

/-- `(bytes / (1024 * 1024)).toFixed(2)`: the size in megabytes rendered
with exactly two decimal places. -/
def fixed2MB (bytes : Nat) : String :=
  let h := jsRound (bytes * 100) (1024 * 1024)
  toString (h / 100) ++ "." ++
    (if h % 100 < 10 then "0" ++ toString (h % 100) else toString (h % 100))

/-- `(bytes / (1024 * 1024)).toFixed(0)`: the size in megabytes rendered
with no decimal places. -/
def fixed0MB (bytes : Nat) : String :=
  toString (jsRound bytes (1024 * 1024))

/-- `validateFile` from `src/unnamed/part_001`: returns `none` for a valid
file and `some errorMessage` otherwise.  The checks run in source order:
extension, then MIME type (only when `file.type` is truthy, i.e.
non-empty), then size. -/
def validateFile (file : UploadCandidate) : Option String :=
  let fileName := toLowerStr file.name
  let hasValidExtension := ALLOWED_EXTENSIONS.any (fun ext => endsWithStr fileName ext)
  if !hasValidExtension then
    some ("Only PDF and DOC/DOCX files are allowed. You selected: " ++ file.name)
  else if file.type != "" && !(ALLOWED_MIME_TYPES.contains file.type) then
    some ("Invalid file type detected. Expected: PDF or DOC/DOCX, Got: " ++ file.type)
  else if MAX_FILE_SIZE < file.size then
    some ("File size (" ++ fixed2MB file.size ++
      "MB) exceeds the maximum limit of " ++ fixed0MB MAX_FILE_SIZE ++ "MB")
  else
    none

/-- The spec's `ValidationOutcome`. -/
inductive ValidationOutcome where
  | Accepted : ValidationOutcome
  | Rejected : String → ValidationOutcome
deriving DecidableEq

/-- The spec's `validate`: `Accepted` exactly when `validateFile` reports
no error, `Rejected` with the reported reason otherwise. -/
def validate (c : UploadCandidate) : ValidationOutcome :=
  match validateFile c with
  | none => ValidationOutcome.Accepted
  | some r => ValidationOutcome.Rejected r

/-- The extension check in isolation: the lower-cased file name ends with
one of `ALLOWED_EXTENSIONS`. -/
def extOk (c : UploadCandidate) : Bool :=
  ALLOWED_EXTENSIONS.any (fun ext => endsWithStr (toLowerStr c.name) ext)

/-- The MIME-type check in isolation: the declared type is empty (check
skipped) or a member of `ALLOWED_MIME_TYPES`. -/
def mimeOk (c : UploadCandidate) : Bool :=
  c.type == "" || ALLOWED_MIME_TYPES.contains c.type

/-- The size check in isolation: at most `MAX_FILE_SIZE` bytes. -/
def sizeOk (c : UploadCandidate) : Bool :=
  decide (c.size ≤ MAX_FILE_SIZE)

/-! ## Helper lemmas -/

/-- Normal form of `validate`: the three checks in source order, the first
failing check winning. -/
theorem validate_eq_cases (c : UploadCandidate) :
    validate c =
      (if extOk c = false then
        ValidationOutcome.Rejected
          ("Only PDF and DOC/DOCX files are allowed. You selected: " ++ c.name)
      else if mimeOk c = false then
        ValidationOutcome.Rejected
          ("Invalid file type detected. Expected: PDF or DOC/DOCX, Got: " ++ c.type)
      else if sizeOk c = false then
        ValidationOutcome.Rejected
          ("File size (" ++ fixed2MB c.size ++ "MB) exceeds the maximum limit of " ++
            fixed0MB MAX_FILE_SIZE ++ "MB")
      else ValidationOutcome.Accepted) := by
  unfold validate validateFile extOk mimeOk sizeOk
  cases h1 : ALLOWED_EXTENSIONS.any fun ext => endsWithStr (toLowerStr c.name) ext
  · simp [h1]
  · by_cases h2 : c.type = ""
    · rcases Nat.lt_or_ge MAX_FILE_SIZE c.size with h4 | h4
      · simp [h1, h2, h4, Nat.not_lt.mpr h4]
      · have h4' : c.size ≤ MAX_FILE_SIZE := h4
        simp [h1, h2, h4', Nat.not_lt.mpr h4]
    · cases h3 : ALLOWED_MIME_TYPES.contains c.type
      · have h3' : c.type ∉ ALLOWED_MIME_TYPES := by simpa using h3
        have hm : mimeOk c = false := by simp [mimeOk, h2, h3']
        simp only [mimeOk] at hm
        simp [h1, h2, h3, hm]
      · rcases Nat.lt_or_ge MAX_FILE_SIZE c.size with h4 | h4
        · simp [h1, h2, h3, h4, Nat.not_lt.mpr h4]
        · have h4' : c.size ≤ MAX_FILE_SIZE := h4
          simp [h1, h2, h3, h4', Nat.not_lt.mpr h4]

/-- A successful search for a closing italic delimiter implies the searched
text contains an asterisk. -/
theorem findClose1_count (cs : List Char) (p : List Char × List Char)
    (h : findClose1 cs = some p) : 1 ≤ cs.count '*' := by
  induction cs generalizing p with
  | nil => simp [findClose1] at h
  | cons c cs ih =>
    rw [findClose1] at h
    by_cases hc : c = '*'
    · subst hc; simp [List.count_cons]
    · rw [if_neg (by simpa using hc)] at h
      by_cases hn : c = '\n'
      · rw [if_pos (by simpa using hn)] at h; exact absurd h (by simp)
      · rw [if_neg (by simpa using hn)] at h
        cases hfc : findClose1 cs with
        | none => rw [hfc] at h; exact absurd h (by simp)
        | some q =>
          have := ih q hfc
          rw [List.count_cons]
          split <;> omega

/-- The italic matcher only fires on a text with at least two asterisks. -/
theorem italM_count (s : List Char) (p : List Char × List Char)
    (h : italM s = some p) : 2 ≤ s.count '*' := by
  cases s with
  | nil => simp [italM] at h
  | cons c cs =>
    rw [italM] at h
    by_cases hc : c = '*'
    · subst hc
      cases hfc : findClose1 cs with
      | none => rw [if_pos (by simp), hfc] at h; exact absurd h (by simp)
      | some q =>
        have := findClose1_count cs q hfc
        rw [List.count_cons_self]
        omega
    · rw [if_neg (by simpa using hc)] at h; exact absurd h (by simp)

/-- The bold matcher only fires on a text with at least two asterisks. -/
theorem boldM_count (s : List Char) (p : List Char × List Char)
    (h : boldM s = some p) : 2 ≤ s.count '*' := by
  cases s with
  | nil => simp [boldM] at h
  | cons c1 s1 =>
    cases s1 with
    | nil => simp [boldM] at h
    | cons c2 cs =>
      rw [boldM] at h
      by_cases hb : c1 = '*' ∧ c2 = '*'
      · obtain ⟨h1, h2⟩ := hb
        subst h1; subst h2
        simp [List.count_cons]
      · rw [if_neg (by simpa [not_and] using fun hx hy => hb ⟨hx, hy⟩)] at h
        exact absurd h (by simp)

/-- A replacement sweep whose matcher needs two asterisks leaves any text
with at most one asterisk unchanged. -/
theorem replAux_id_of_few (M : List Char → Option (List Char × List Char))
    (H : ∀ t p, M t = some p → 2 ≤ t.count '*') :
    ∀ (n : Nat) (s : List Char), s.count '*' ≤ 1 → replAux M n s = s := by
  intro n
  induction n with
  | zero => intro s _; rfl
  | succ n ih =>
    intro s hs
    cases s with
    | nil => rfl
    | cons c cs =>
      rw [replAux]
      cases hm : M (c :: cs) with
      | some p => exact absurd (H _ _ hm) (by omega)
      | none =>
        have hcs : cs.count '*' ≤ 1 := by
          rw [List.count_cons] at hs; split at hs <;> omega
        simp [ih cs hcs]

/-! ## The claims -/

/-- C1: `validate` applies its checks in the exact order extension, MIME
type, size, the first failing check winning (a candidate failing the
extension check gets the extension message regardless of its MIME type and
size); the outcome is `Accepted` iff all three checks pass, and a candidate
whose size equals `MAX_FILE_SIZE` exactly passes the size check. -/
theorem c1_validate_order (c : UploadCandidate) :
    (extOk c = false →
      validate c = ValidationOutcome.Rejected
        ("Only PDF and DOC/DOCX files are allowed. You selected: " ++ c.name))
  ∧ (extOk c = true → mimeOk c = false →
      validate c = ValidationOutcome.Rejected
        ("Invalid file type detected. Expected: PDF or DOC/DOCX, Got: " ++ c.type))
  ∧ (extOk c = true → mimeOk c = true → sizeOk c = false →
      validate c = ValidationOutcome.Rejected
        ("File size (" ++ fixed2MB c.size ++ "MB) exceeds the maximum limit of " ++
          fixed0MB MAX_FILE_SIZE ++ "MB"))
  ∧ (validate c = ValidationOutcome.Accepted ↔
      extOk c = true ∧ mimeOk c = true ∧ sizeOk c = true)
  ∧ (extOk c = true → mimeOk c = true → c.size = MAX_FILE_SIZE →
      validate c = ValidationOutcome.Accepted) := by
  rw [validate_eq_cases c]
  refine ⟨fun h1 => by simp [h1], fun h1 h2 => by simp [h1, h2],
    fun h1 h2 h3 => by simp [h1, h2, h3], ?_, ?_⟩
  · cases h1 : extOk c <;> cases h2 : mimeOk c <;> cases h3 : sizeOk c <;> simp
  · intro h1 h2 h3
    have h4 : sizeOk c = true := by simp [sizeOk, h3]
    simp [h1, h2, h4]

/-- C1, witness: a PDF candidate of exactly `MAX_FILE_SIZE` bytes is
accepted. -/
theorem c1_validate_order_witness :
    extOk ⟨"a.pdf", "application/pdf", 10485760⟩ = true
  ∧ mimeOk ⟨"a.pdf", "application/pdf", 10485760⟩ = true
  ∧ (10485760 : Nat) = MAX_FILE_SIZE
  ∧ validate ⟨"a.pdf", "application/pdf", 10485760⟩ = ValidationOutcome.Accepted :=
  ⟨by decide, by decide, by decide,
    (c1_validate_order ⟨"a.pdf", "application/pdf", 10485760⟩).2.2.2.2
      (by decide) (by decide) (by decide)⟩

/-- C5: an empty declared MIME type is tolerated (the MIME check is
skipped), so a candidate with an allowed extension, empty MIME type and
in-limit size is accepted; a non-empty MIME type outside
`ALLOWED_MIME_TYPES` is rejected with the expected-versus-received
message. -/
theorem c5_mime_tolerance :
    (∀ c : UploadCandidate, c.type = "" → extOk c = true → c.size ≤ MAX_FILE_SIZE →
      validate c = ValidationOutcome.Accepted)
  ∧ (∀ c : UploadCandidate, extOk c = true → c.type ≠ "" →
      ALLOWED_MIME_TYPES.contains c.type = false →
      validate c = ValidationOutcome.Rejected
        ("Invalid file type detected. Expected: PDF or DOC/DOCX, Got: " ++ c.type))
  ∧ validate ⟨"a.pdf", "", 100⟩ = ValidationOutcome.Accepted := by
  refine ⟨fun c h1 h2 h3 => ?_, fun c h1 h2 h3 => ?_, by decide⟩
  · rw [validate_eq_cases c]
    have hm : mimeOk c = true := by simp [mimeOk, h1]
    have hs : sizeOk c = true := by simp [sizeOk, h3]
    simp [h2, hm, hs]
  · rw [validate_eq_cases c]
    have h3' : c.type ∉ ALLOWED_MIME_TYPES := by simpa using h3
    have hm : mimeOk c = false := by simp [mimeOk, h2, h3']
    simp [h1, hm]

/-- C5, witness: an empty-MIME candidate with a valid extension and small
size is accepted. -/
theorem c5_mime_tolerance_witness :
    (UploadCandidate.mk "b.docx" "" 5000).type = ""
  ∧ extOk ⟨"b.docx", "", 5000⟩ = true
  ∧ (5000 : Nat) ≤ MAX_FILE_SIZE
  ∧ validate ⟨"b.docx", "", 5000⟩ = ValidationOutcome.Accepted :=
  ⟨by decide, by decide, by decide,
    c5_mime_tolerance.1 ⟨"b.docx", "", 5000⟩ (by decide) (by decide) (by decide)⟩

/-- C6: the extension check lower-cases the file name first, so
`A.PDF` with a valid MIME type and size is accepted; a candidate whose
lower-cased name ends with none of the allowed extensions is rejected with
the message naming the offending file. -/
theorem c6_extension_case_insensitive :
    validate ⟨"A.PDF", "application/pdf", 100⟩ = ValidationOutcome.Accepted
  ∧ (∀ c : UploadCandidate,
      (ALLOWED_EXTENSIONS.any fun ext => endsWithStr (toLowerStr c.name) ext) = false →
      validate c = ValidationOutcome.Rejected
        ("Only PDF and DOC/DOCX files are allowed. You selected: " ++ c.name)) := by
  refine ⟨by decide, fun c h => ?_⟩
  rw [validate_eq_cases c]
  have he : extOk c = false := h
  simp [he]

/-- C6, witness: `a.txt` fails the extension check and is rejected with
the extension message. -/
theorem c6_extension_case_insensitive_witness :
    (ALLOWED_EXTENSIONS.any fun ext =>
      endsWithStr (toLowerStr (UploadCandidate.mk "a.txt" "text/plain" 100).name) ext) = false
  ∧ validate ⟨"a.txt", "text/plain", 100⟩ = ValidationOutcome.Rejected
      "Only PDF and DOC/DOCX files are allowed. You selected: a.txt" :=
  ⟨by decide, c6_extension_case_insensitive.2 ⟨"a.txt", "text/plain", 100⟩ (by decide)⟩

/-- C10: the extension check inspects only the suffix of the (lower-cased)
file name, so every name that case-insensitively ends with `.pdf`, `.doc`
or `.docx` passes it — including the double-extension name
`report.exe.pdf` and the bare-extension name `.pdf` — and such a candidate
with empty MIME type and in-limit size is accepted. -/
theorem c10_suffix_only :
    (∀ (nm : String) (sz : Nat),
      (endsWithStr (toLowerStr nm) ".pdf" || endsWithStr (toLowerStr nm) ".doc" ||
        endsWithStr (toLowerStr nm) ".docx") = true →
      sz ≤ MAX_FILE_SIZE →
      validate ⟨nm, "", sz⟩ = ValidationOutcome.Accepted)
  ∧ validate ⟨"report.exe.pdf", "", 100⟩ = ValidationOutcome.Accepted
  ∧ validate ⟨".pdf", "", 100⟩ = ValidationOutcome.Accepted := by
  refine ⟨fun nm sz h1 h2 => ?_, by decide, by decide⟩
  rw [validate_eq_cases ⟨nm, "", sz⟩]
  have he : extOk ⟨nm, "", sz⟩ = true := by
    simp only [extOk, ALLOWED_EXTENSIONS, List.any_cons, List.any_nil, Bool.or_false,
      ← Bool.or_assoc]
    exact h1
  have hm : mimeOk ⟨nm, "", sz⟩ = true := by simp [mimeOk]
  have hs : sizeOk ⟨nm, "", sz⟩ = true := by simp [sizeOk, h2]
  simp [he, hm, hs]

/-- C10, witness: the double-extension name is accepted. -/
theorem c10_suffix_only_witness :
    (endsWithStr (toLowerStr "report.exe.pdf") ".pdf" ||
      endsWithStr (toLowerStr "report.exe.pdf") ".doc" ||
      endsWithStr (toLowerStr "report.exe.pdf") ".docx") = true
  ∧ (100 : Nat) ≤ MAX_FILE_SIZE
  ∧ validate ⟨"report.exe.pdf", "", 100⟩ = ValidationOutcome.Accepted :=
  ⟨by decide, by decide, c10_suffix_only.1 "report.exe.pdf" 100 (by decide) (by decide)⟩

/-- C3, counterexample: on an 11MB PDF the rejection message renders the
candidate size with two decimals (`11.00MB`) but the maximum limit with
zero decimals (`10MB`, not `10.00MB`), so the claim that both sizes are
rounded to two-decimal megabytes is false. -/
theorem c3_size_message_counterexample :
    validate ⟨"a.pdf", "application/pdf", 11 * 1024 * 1024⟩ =
      ValidationOutcome.Rejected
        "File size (11.00MB) exceeds the maximum limit of 10MB"
  ∧ hasSubStr "File size (11.00MB) exceeds the maximum limit of 10MB" "10.00" = false := by
  exact ⟨by decide, by decide⟩

/-- C3, amended: when `validate` rejects for size (earlier checks passing),
the message states the candidate's size rounded to two-decimal megabytes
and the maximum limit rounded to zero-decimal (whole) megabytes — "10" for
the 10MB limit — megabytes being bytes / 1,048,576. -/
theorem c3_size_message_amended (c : UploadCandidate)
    (h1 : extOk c = true) (h2 : mimeOk c = true) (h3 : MAX_FILE_SIZE < c.size) :
    validate c = ValidationOutcome.Rejected
      ("File size (" ++ fixed2MB c.size ++ "MB) exceeds the maximum limit of " ++
        fixed0MB MAX_FILE_SIZE ++ "MB")
  ∧ fixed0MB MAX_FILE_SIZE = "10" := by
  refine ⟨?_, by decide⟩
  rw [validate_eq_cases c]
  have hs : sizeOk c = false := by simp [sizeOk, Nat.not_le.mpr h3]
  simp [h1, h2, hs]

/-- C3, witness: the amended statement evaluated on the 11MB PDF. -/
theorem c3_size_message_amended_witness :
    extOk ⟨"a.pdf", "application/pdf", 11534336⟩ = true
  ∧ mimeOk ⟨"a.pdf", "application/pdf", 11534336⟩ = true
  ∧ MAX_FILE_SIZE < 11534336
  ∧ validate ⟨"a.pdf", "application/pdf", 11534336⟩ = ValidationOutcome.Rejected
      "File size (11.00MB) exceeds the maximum limit of 10MB" := by
  refine ⟨by decide, by decide, by decide, ?_⟩
  have h := (c3_size_message_amended ⟨"a.pdf", "application/pdf", 11534336⟩
    (by decide) (by decide) (by decide)).1
  simpa using h

/-- C7, counterexample: on `"a ** b"` a double asterisk with no matching
closer does not pass through literally — the italic pass consumes it as an
empty emphasis span, so the output contains an `<em>` tag and no longer
contains `**`. -/
theorem c7_unbalanced_counterexample :
    formatText "a ** b" = "a <em></em> b"
  ∧ hasSubStr (formatText "a ** b") "<em>" = true
  ∧ hasSubStr (formatText "a ** b") "**" = false := by
  exact ⟨by decide, by decide, by decide⟩

/-- C7, amended: the formatter is total and deterministic (a Lean function);
any text with at most one asterisk passes through the bold and italic
sweeps unchanged — in particular a lone `*` with no matching partner is
left literally in place — but an unclosed `**` is consumed by the italic
pass as an empty `<em></em>` rather than passing through. -/
theorem c7_totality_amended :
    (∀ s : List Char, s.count '*' ≤ 1 →
      runRepl boldM s = s ∧ runRepl italM s = s)
  ∧ formatText "a * b" = "a * b"
  ∧ formatText "a ** b" = "a <em></em> b" := by
  refine ⟨fun s hs => ⟨?_, ?_⟩, by decide, by decide⟩
  · exact replAux_id_of_few boldM boldM_count s.length s hs
  · exact replAux_id_of_few italM italM_count s.length s hs

/-- C7, witness: the general part evaluated on a text with a single lone
asterisk. -/
theorem c7_totality_amended_witness :
    ("a * b".data.count '*' ≤ 1)
  ∧ runRepl boldM "a * b".data = "a * b".data
  ∧ runRepl italM "a * b".data = "a * b".data :=
  ⟨by decide, (c7_totality_amended.1 "a * b".data (by decide)).1,
    (c7_totality_amended.1 "a * b".data (by decide)).2⟩

/-- C2, counterexample: in the `App.jsx` variant `format("# Title")` is
left unchanged (no level-2 marker) while `format("## Title")` yields the
level-2 heading, and in the `part_000` variant it is the other way round —
so no configuration maps both `#` and `##` to the level-2 heading. -/
theorem c2_heading_counterexample :
    formatText "# Title" = "# Title"
  ∧ hasSubStr (formatText "# Title") "<h2" = false
  ∧ hasSubStr (formatText "## Title") "<h2" = true
  ∧ formatTextV0 "## Title" = "## Title"
  ∧ hasSubStr (formatTextV0 "## Title") "<h2" = false
  ∧ hasSubStr (formatTextV0 "# Title") "<h2" = true := by
  exact ⟨by decide, by decide, by decide, by decide, by decide, by decide⟩

/-- C2, amended: in the `App.jsx` variant `##` maps to the level-2 heading
and a single `#` is left unchanged; in the `part_000` variant a single `#`
maps to the level-2 heading and `##` is left unchanged; `### Sub` yields
the level-3 heading marker in both. -/
theorem c2_heading_amended :
    formatText "## Title" =
      "<h2 style=\"font-size: 20px; font-weight: 600; color: #2c3e50; margin: 16px 0 8px 0; line-height: 1.3;\">Title</h2>"
  ∧ formatText "# Title" = "# Title"
  ∧ formatText "### Sub" =
      "<h3 style=\"font-size: 18px; font-weight: 600; color: #34495e; margin: 12px 0 6px 0; line-height: 1.3;\">Sub</h3>"
  ∧ formatTextV0 "# Title" = "<h2 class=\"chat-h2\">Title</h2>"
  ∧ formatTextV0 "## Title" = "## Title"
  ∧ formatTextV0 "### Sub" = "<h3 class=\"chat-h3\">Sub</h3>" := by
  exact ⟨by decide, by decide, by decide, by decide, by decide, by decide⟩

/-- C4: the bold pass runs before the italic pass — `format("**a**")`
contains `<strong>a</strong>` and no `<em>` tag, while `format("*a*")`
contains `<em>a</em>`. -/
theorem c4_bold_before_italic :
    formatText "**a**" = "<strong>a</strong>"
  ∧ hasSubStr (formatText "**a**") "<strong>a</strong>" = true
  ∧ formatText "*a*" = "<em>a</em>"
  ∧ hasSubStr (formatText "*a*") "<em>a</em>" = true
  ∧ hasSubStr (formatText "**a**") "<em" = false := by
  exact ⟨by decide, by decide, by decide, by decide, by decide⟩

/-- C8: the passes are not independent — on `"***a***"` the bold pass
yields `<strong>*a</strong>*` and the italic pass then matches a span that
includes the substituted `</strong>` text, producing the interleaved
`<strong><em>a</strong></em>`. -/
theorem c8_pass_interaction :
    runRepl boldM "***a***".data = "<strong>*a</strong>*".data
  ∧ runRepl italM "<strong>*a</strong>*".data = "<strong><em>a</strong></em>".data
  ∧ formatText "***a***" = "<strong><em>a</strong></em>"
  ∧ hasSubStr (formatText "***a***") "<em>a</strong></em>" = true := by
  exact ⟨by decide, by decide, by decide, by decide⟩

/-- C9: `format("- item")` and `format("* item")` both yield the same
bullet-item container with body `item`, and the lone leading `*` of
`"* item"` is not consumed by the earlier italic pass. -/
theorem c9_bullet_lines :
    formatText "- item" = "<div style=\"margin: 6px 0; padding-left: 12px;\">• item</div>"
  ∧ formatText "* item" = "<div style=\"margin: 6px 0; padding-left: 12px;\">• item</div>"
  ∧ runRepl italM "* item".data = "* item".data := by
  exact ⟨by decide, by decide, by decide⟩
